import Mathlib

/-!
Verification of the stock_idss feature/backtest pipeline.

Shallow embedding of:
  * `evaluation/backtest.py` — `backtest_strategy`
  * `src/features.py` — `add_target_return`
  * `src/predictor.py` — `predict_returns`, `apply_label`
  * `src/fundamental_fetcher.py` — `classify_market_cap`

Floats are modelled as rationals (ℚ); a pandas NaN / missing cell is
`Option.none`; a Python exception is modelled by the function returning
`Option.none` / `Except.error` instead of a result.
-/

/-! ### Backtest data model (`evaluation/backtest.py`) -/

/-- One row of the prediction CSV consumed by `backtest_strategy`
(columns `predicted_label` and `target_return`). -/
structure PredRow where
  predicted_label : ℚ
  target_return : ℚ
  deriving DecidableEq

/-- `df['strategy_return'] = np.where(df[label_col] == 1, df[actual_col], 0)`. -/
def strategy_return (r : PredRow) : ℚ :=
  if r.predicted_label = 1 then r.target_return else 0

/-- The `strategy_return` column of the frame. -/
def strategyReturns (rows : List PredRow) : List ℚ :=
  rows.map strategy_return

/-- `Series.cumprod`: running product, one output per input element. -/
def cumprod : List ℚ → List ℚ
  | [] => []
  | x :: xs => x :: (cumprod xs).map (fun y => x * y)

/-- `np.sign` on a rational. -/
def sign (x : ℚ) : ℤ :=
  if 0 < x then 1 else if x < 0 then -1 else 0

/-- `df['win'] = np.sign(df[label_col] - 0.5) == np.sign(df[actual_col])`. -/
def win (r : PredRow) : Bool :=
  sign (r.predicted_label - 1/2) == sign r.target_return

/-- `df['win'].mean()`: mean of a boolean column, NaN (`none`) on an empty
frame. -/
def winRate (rows : List PredRow) : Option ℚ :=
  if rows.isEmpty then none else some ((rows.countP win : ℚ) / rows.length)

/-- `Series.mean()` of a nonempty numeric column. -/
def listMean (xs : List ℚ) : ℚ := xs.sum / xs.length

/-- Population variance, matching `Series.std(ddof=0) ^ 2`. -/
def listVarPop (xs : List ℚ) : ℚ :=
  ((xs.map (fun x => (x - listMean xs) ^ 2)).sum) / xs.length

/-- `Series.std(ddof=0)`: population standard deviation. -/
noncomputable def popStd (xs : List ℚ) : ℝ := Real.sqrt (listVarPop xs)

/-- Line 15 of `backtest.py`:
`mean/std(ddof=0)*sqrt(252) if std(ddof=0) > 0 else float('nan')`. -/
noncomputable def sharpeOf (xs : List ℚ) : Option ℝ :=
  if 0 < popStd xs then some (((listMean xs : ℝ) / popStd xs) * Real.sqrt 252)
  else none

/-- The dictionary returned by `backtest_strategy` (the echoed `df` is
omitted; `win_rate`/`sharpe` are `none` where pandas yields NaN). -/
structure BacktestResult where
  total_return : ℚ
  win_rate : Option ℚ
  return_curve : List ℚ
  sharpe : Option ℝ

/-- `backtest_strategy` from `evaluation/backtest.py`.  The read of
`df['cumulative_return'].iloc[-1]` raises `IndexError` on an empty frame;
this is modelled by `List.getLast?` returning `none`, which makes the whole
call return `none`. -/
noncomputable def backtest_strategy (rows : List PredRow) (initial_cash : ℚ) :
    Option BacktestResult :=
  let srs := strategyReturns rows
  let cum := (cumprod (srs.map (fun x => 1 + x))).map (fun x => x * initial_cash)
  cum.getLast?.map (fun lastVal =>
    { total_return := lastVal / initial_cash - 1
      win_rate := winRate rows
      return_curve := cum
      sharpe := sharpeOf srs })

/-! ### Target return (`src/features.py`) -/

/-- `Series.shift(-d)`: element `t` becomes the element at `t + d`, NaN
(`none`) when that runs past the end. -/
def shiftNeg (xs : List ℚ) (d : Nat) : List (Option ℚ) :=
  (List.range xs.length).map (fun t => xs.get? (t + d))

/-- `add_target_return`:
`df['target_return'] = df['Close'].shift(-forward_days) / df['Close'] - 1`,
with NaN propagating through the arithmetic. -/
def add_target_return (close : List ℚ) (forward_days : Nat) : List (Option ℚ) :=
  List.zipWith (fun o c => o.map (fun v => v / c - 1)) (shiftNeg close forward_days) close

/-! ### Labelling (`src/predictor.py`, `apply_label`) -/

/-- A row of a prediction table as seen by `apply_label`: the
`predicted_return` column and the (possibly not yet present)
`predicted_label` column. -/
structure LabelRow where
  predicted_return : ℚ
  predicted_label : Option ℤ
  deriving DecidableEq

/-- `(df[pred_col] >= threshold).astype(int)` for one cell. -/
def labelOf (pr threshold : ℚ) : ℤ :=
  if threshold ≤ pr then 1 else 0

/-- `apply_label`: copy the frame and overwrite the label column from the
prediction column. -/
def apply_label (df : List LabelRow) (threshold : ℚ) : List LabelRow :=
  df.map (fun r => { r with predicted_label := some (labelOf r.predicted_return threshold) })

/-! ### Prediction (`src/predictor.py`, `predict_returns`) -/

/-- A pandas DataFrame: named columns, rows of possibly-NaN numeric cells. -/
structure DataFrame where
  cols : List String
  rows : List (List (Option ℚ))

/-- The loaded model artifact: an opaque per-row regressor together with its
declared feature-column names. -/
structure ModelData where
  model : List (Option ℚ) → ℚ
  features : List String

/-- `[f for f in features if f in df.columns]`. -/
def availableFeatures (features : List String) (df : DataFrame) : List String :=
  features.filter (fun f => df.cols.contains f)

/-- `[f for f in features if f not in df.columns]`. -/
def missingFeatures (features : List String) (df : DataFrame) : List String :=
  features.filter (fun f => !(df.cols.contains f))

/-- Look a cell up by column name. -/
def cellAt (cols : List String) (row : List (Option ℚ)) (c : String) : Option ℚ :=
  match cols.findIdx? (fun x => x == c) with
  | some i => row.getD i none
  | none => none

/-- `X = df[available_features]`. -/
def featureMatrix (df : DataFrame) (avail : List String) : List (List (Option ℚ)) :=
  df.rows.map (fun r => avail.map (fun f => cellAt df.cols r f))

/-- `X.isna().any().any()`. -/
def hasNaN (X : List (List (Option ℚ))) : Bool :=
  X.any (fun row => row.any (fun c => c.isNone))

/-- `X.fillna(0)`. -/
def fillMatrix (X : List (List (Option ℚ))) : List (List (Option ℚ)) :=
  X.map (fun row => row.map (fun c => some (c.getD 0)))

/-- The matrix handed to `model.predict`: the selected feature columns,
zero-filled when any NaN was found. -/
def matrixPassed (md : ModelData) (df : DataFrame) : List (List (Option ℚ)) :=
  let X := featureMatrix df (availableFeatures md.features df)
  if hasNaN X then fillMatrix X else X

/-- `predict_returns`: select the declared features present in the input,
raise `ValueError` when none are, otherwise predict and append the
`predicted_return`, `features_used` and `features_missing` columns. -/
def predict_returns (md : ModelData) (df : DataFrame) : Except String DataFrame :=
  let available := availableFeatures md.features df
  let missing := missingFeatures md.features df
  if available = [] then Except.error "No features available for prediction"
  else
    let preds := (matrixPassed md df).map md.model
    Except.ok
      { cols := df.cols ++ ["predicted_return", "features_used", "features_missing"]
        rows := (df.rows.zip preds).map
          (fun rp => rp.1 ++ [some rp.2, some (available.length : ℚ), some (missing.length : ℚ)]) }

/-! ### Market-cap classification (`src/fundamental_fetcher.py`) -/

/-- `classify_market_cap`: `None ⇒ 'Unknown'`, `≥ 10e9 ⇒ 'Large'`,
`≥ 2e9 ⇒ 'Mid'`, otherwise `'Small'`. -/
def classify_market_cap : Option ℚ → String
  | none => "Unknown"
  | some mc =>
    if 10000000000 ≤ mc then "Large"
    else if 2000000000 ≤ mc then "Mid"
    else "Small"

/-! ## Helper lemmas about `cumprod` -/

lemma cumprod_length (xs : List ℚ) : (cumprod xs).length = xs.length := by
  induction xs with
  | nil => rfl
  | cons x xs ih => simp [cumprod, ih]

lemma cumprod_getElem? (xs : List ℚ) : ∀ t, t < xs.length →
    (cumprod xs)[t]? = some ((xs.take (t + 1)).prod) := by
  induction xs with
  | nil => intro t ht; simp at ht
  | cons x xs ih =>
    intro t ht
    cases t with
    | zero => simp [cumprod]
    | succ n =>
      have hn : n < xs.length := by simpa using ht
      simp only [cumprod, List.getElem?_cons_succ, List.getElem?_map, ih n hn,
        Option.map_some', List.take_succ_cons, List.prod_cons]

lemma listGetLast?_map (f : ℚ → ℚ) (l : List ℚ) :
    (l.map f).getLast? = l.getLast?.map f := by
  induction l with
  | nil => rfl
  | cons x xs ih =>
    cases xs with
    | nil => rfl
    | cons y ys =>
      simp only [List.map_cons] at ih ⊢
      rw [List.getLast?_cons_cons, List.getLast?_cons_cons]
      exact ih

lemma cumprod_getLast? (xs : List ℚ) (h : xs ≠ []) :
    (cumprod xs).getLast? = some xs.prod := by
  have hpos : 0 < xs.length := List.length_pos.mpr h
  rw [List.getLast?_eq_getElem?, cumprod_length,
    cumprod_getElem? xs (xs.length - 1) (by omega)]
  congr 1
  rw [Nat.sub_add_cancel hpos, List.take_length]

/-- On a nonempty frame, `backtest_strategy` returns the record built from
the cumulative-product curve, `winRate`, and `sharpeOf`. -/
lemma backtest_strategy_eq_some (rows : List PredRow) (cash : ℚ) (h : rows ≠ []) :
    backtest_strategy rows cash = some
      { total_return := (rows.map (fun r => 1 + strategy_return r)).prod * cash / cash - 1
        win_rate := winRate rows
        return_curve :=
          (cumprod (rows.map (fun r => 1 + strategy_return r))).map (fun x => x * cash)
        sharpe := sharpeOf (strategyReturns rows) } := by
  have hys : (strategyReturns rows).map (fun x => 1 + x) =
      rows.map (fun r => 1 + strategy_return r) := by
    rw [strategyReturns, List.map_map]; rfl
  have hysne : rows.map (fun r => 1 + strategy_return r) ≠ [] := by
    simpa using h
  simp only [backtest_strategy]
  rw [hys, listGetLast?_map, cumprod_getLast? _ hysne]
  rfl

/-! ## Claims about `backtest_strategy` -/

/-- Claim C1: the backtest compounds `strategy_return(t)` (the actual return
when the label is `1`, zero otherwise) into
`cumulative_return(t) = initial_cash · Π_{i ≤ t} (1 + strategy_return i)`,
sets `total_return = cumulative_return(last)/initial_cash − 1`, and on an
all-zero-label sequence yields `total_return = 0` with the curve constant at
`initial_cash`. -/
theorem backtest_cumulative_spec (rows : List PredRow) (cash : ℚ) (h : rows ≠ []) :
    ∃ res, backtest_strategy rows cash = some res ∧
      res.return_curve.length = rows.length ∧
      (∀ t, t < rows.length → res.return_curve.get? t =
        some ((((rows.take (t + 1)).map (fun r => 1 + strategy_return r)).prod) * cash)) ∧
      res.total_return =
        ((rows.map (fun r => 1 + strategy_return r)).prod * cash) / cash - 1 ∧
      ((∀ r ∈ rows, r.predicted_label = 0) → cash ≠ 0 →
        res.total_return = 0 ∧ ∀ c ∈ res.return_curve, c = cash) := by
  refine ⟨_, backtest_strategy_eq_some rows cash h, ?_, ?_, ?_, ?_⟩
  · simp [cumprod_length]
  · intro t ht
    show ((cumprod (rows.map (fun r => 1 + strategy_return r))).map (fun x => x * cash)).get? t = _
    rw [List.get?_eq_getElem?, List.getElem?_map,
      cumprod_getElem? _ t (by simpa using ht), ← List.map_take]
    rfl
  · rfl
  · intro hz hcash
    have hone : ∀ r ∈ rows, 1 + strategy_return r = 1 := by
      intro r hr
      have hsr : strategy_return r = 0 := by
        unfold strategy_return
        rw [hz r hr]
        norm_num
      rw [hsr, add_zero]
    have hprodone : ∀ t, ((rows.take t).map (fun r => 1 + strategy_return r)).prod = 1 := by
      intro t
      refine List.prod_eq_one ?_
      intro x hx
      rcases List.mem_map.mp hx with ⟨r, hr, rfl⟩
      exact hone r (List.take_subset t rows hr)
    constructor
    · show (rows.map (fun r => 1 + strategy_return r)).prod * cash / cash - 1 = 0
      have hallone : (rows.map (fun r => 1 + strategy_return r)).prod = 1 := by
        have := hprodone rows.length
        rwa [List.take_length] at this
      rw [hallone, one_mul, div_self hcash, sub_self]
    · intro c hc
      rcases List.mem_iff_getElem?.mp hc with ⟨t, hget⟩
      have htlen : t < rows.length := by
        by_contra hlt
        rw [List.getElem?_eq_none (by simpa [cumprod_length] using Nat.le_of_not_lt hlt)] at hget
        exact Option.noConfusion hget
      rw [List.getElem?_map, cumprod_getElem? _ t (by simpa using htlen),
        ← List.map_take, hprodone (t + 1)] at hget
      have : some (1 * cash) = some c := by simpa using hget
      have hval : 1 * cash = c := Option.some.inj this
      rw [← hval, one_mul]

/-- Witness for C1: two rows, both labelled 0, initial cash 1: the total
return is 0 and the curve is constantly 1. -/
theorem backtest_cumulative_spec_wit :
    ([PredRow.mk 0 (1/20), PredRow.mk 0 (-1/50)] : List PredRow) ≠ [] ∧ (1 : ℚ) ≠ 0 ∧
    ∃ res, backtest_strategy [PredRow.mk 0 (1/20), PredRow.mk 0 (-1/50)] 1 = some res ∧
      res.total_return = 0 ∧ ∀ c ∈ res.return_curve, c = 1 := by
  have hne : ([PredRow.mk 0 (1/20), PredRow.mk 0 (-1/50)] : List PredRow) ≠ [] := by decide
  obtain ⟨res, hsome, _, _, _, hzero⟩ := backtest_cumulative_spec _ 1 hne
  obtain ⟨ht, hc⟩ := hzero (by decide) one_ne_zero
  exact ⟨hne, one_ne_zero, res, hsome, ht, hc⟩

/-- Counterexample for C2: on the empty prediction sequence the backtest does
NOT return NaN metrics — the read of `cumulative_return.iloc[-1]` fails
(modelled as `none`), so no result dictionary is produced. -/
theorem backtest_empty_cex : backtest_strategy [] 1 = none := rfl

/-- Amended C2: for every `initial_cash`, the backtest on an empty input
raises (returns no result) instead of returning NaN metrics; the empty case
is not guarded. -/
theorem backtest_empty_raises (cash : ℚ) : backtest_strategy [] cash = none := rfl

/-- Claim C3: `win(t)` holds iff `sign(label − 0.5) = sign(actual_return)`,
`win_rate` is the mean of `win` over all rows, and a row with zero actual
return is never a win under either binary label. -/
theorem backtest_win_rate_spec (rows : List PredRow) (cash : ℚ) (h : rows ≠ []) :
    ∃ res, backtest_strategy rows cash = some res ∧
      res.win_rate = some ((rows.countP win : ℚ) / rows.length) ∧
      (∀ r ∈ rows, (win r = true ↔ sign (r.predicted_label - 1/2) = sign r.target_return)) ∧
      (∀ r ∈ rows, r.target_return = 0 →
        (r.predicted_label = 0 ∨ r.predicted_label = 1) → win r = false) := by
  refine ⟨_, backtest_strategy_eq_some rows cash h, ?_, ?_, ?_⟩
  · show winRate rows = _
    rw [winRate, if_neg (by simpa [List.isEmpty_iff] using h)]
  · intro r _
    simp [win]
  · intro r _ h0 hl
    unfold win
    rw [h0]
    rcases hl with h1 | h1 <;> rw [h1] <;> norm_num [sign]

/-- Witness for C3: two rows; the first (label 1, positive return) is a win,
the second (label 0, zero return) is not, so the win rate is 1/2. -/
theorem backtest_win_rate_spec_wit :
    ([PredRow.mk 1 2, PredRow.mk 0 0] : List PredRow) ≠ [] ∧
    ∃ res, backtest_strategy [PredRow.mk 1 2, PredRow.mk 0 0] 1 = some res ∧
      res.win_rate = some (1/2) ∧ win (PredRow.mk 0 0) = false := by
  have hne : ([PredRow.mk 1 2, PredRow.mk 0 0] : List PredRow) ≠ [] := by decide
  obtain ⟨res, hsome, hwr, _, hzero⟩ := backtest_win_rate_spec _ 1 hne
  refine ⟨hne, res, hsome, ?_, ?_⟩
  · rw [hwr]
    norm_num [List.countP_cons, List.countP_nil, win, sign]
  · exact hzero (PredRow.mk 0 0) (by decide) (by decide) (Or.inl (by decide))

/-- Claim C4: for a nonempty input the backtest's `sharpe` is
`mean/std(ddof=0) · √252` whenever the population standard deviation of the
strategy returns is positive, and is NaN (`none`) when it is zero. -/
theorem backtest_sharpe_spec (rows : List PredRow) (cash : ℚ) (h : rows ≠ []) :
    ∃ res, backtest_strategy rows cash = some res ∧
      (0 < popStd (strategyReturns rows) →
        res.sharpe = some (((listMean (strategyReturns rows) : ℝ) /
          popStd (strategyReturns rows)) * Real.sqrt 252)) ∧
      (popStd (strategyReturns rows) = 0 → res.sharpe = none) := by
  refine ⟨_, backtest_strategy_eq_some rows cash h, ?_, ?_⟩
  · intro hpos
    show sharpeOf (strategyReturns rows) = _
    rw [sharpeOf, if_pos hpos]
  · intro hzero
    show sharpeOf (strategyReturns rows) = none
    rw [sharpeOf, if_neg]
    rw [hzero]
    exact lt_irrefl 0

/-- Witness for C4: strategy returns `[1, 0]` have population variance 1/4,
hence positive standard deviation, and the sharpe is defined. -/
theorem backtest_sharpe_spec_wit :
    ([PredRow.mk 1 1, PredRow.mk 1 0] : List PredRow) ≠ [] ∧
    0 < popStd (strategyReturns [PredRow.mk 1 1, PredRow.mk 1 0]) ∧
    ∃ res, backtest_strategy [PredRow.mk 1 1, PredRow.mk 1 0] 1 = some res ∧
      res.sharpe = some (((listMean (strategyReturns [PredRow.mk 1 1, PredRow.mk 1 0]) : ℝ) /
        popStd (strategyReturns [PredRow.mk 1 1, PredRow.mk 1 0])) * Real.sqrt 252) := by
  have hne : ([PredRow.mk 1 1, PredRow.mk 1 0] : List PredRow) ≠ [] := by decide
  have hsrs : strategyReturns [PredRow.mk 1 1, PredRow.mk 1 0] = [1, 0] := by
    norm_num [strategyReturns, strategy_return]
  have hvar : listVarPop (strategyReturns [PredRow.mk 1 1, PredRow.mk 1 0]) = 1/4 := by
    rw [hsrs]
    norm_num [listVarPop, listMean]
  have hpos : 0 < popStd (strategyReturns [PredRow.mk 1 1, PredRow.mk 1 0]) := by
    rw [popStd, hvar]
    exact Real.sqrt_pos.mpr (by exact_mod_cast (by norm_num : (0 : ℚ) < 1/4))
  obtain ⟨res, hsome, him, _⟩ := backtest_sharpe_spec _ 1 hne
  exact ⟨hne, hpos, res, hsome, him hpos⟩

/-! ## Claims about `apply_label` -/

/-- Claim C6: for every row of the output of `apply_label` and every
threshold, the label is `1` exactly when `predicted_return ≥ threshold` and
`0` exactly when `predicted_return < threshold`; a tie at the threshold gets
the buy label `1`. -/
theorem apply_label_threshold_spec (df : List LabelRow) (threshold : ℚ)
    (r : LabelRow) (h : r ∈ apply_label df threshold) :
    (r.predicted_label = some 1 ↔ threshold ≤ r.predicted_return) ∧
    (r.predicted_label = some 0 ↔ r.predicted_return < threshold) ∧
    (r.predicted_return = threshold → r.predicted_label = some 1) := by
  rcases List.mem_map.mp h with ⟨s, _, rfl⟩
  unfold labelOf
  by_cases hle : threshold ≤ s.predicted_return
  · simp [hle, not_lt.mpr hle]
  · refine ⟨?_, ?_, ?_⟩
    · simp [hle]
    · simp [hle, lt_of_not_ge hle]
    · intro heq
      exact absurd (heq ▸ le_refl threshold) hle

/-- Witness for C6 at `predicted_return = 3`, `threshold = 2`. -/
theorem apply_label_threshold_spec_wit :
    (LabelRow.mk 3 (some 1)) ∈ apply_label [LabelRow.mk 3 none] 2 ∧
    (((LabelRow.mk 3 (some 1)).predicted_label = some 1 ↔
        (2:ℚ) ≤ (LabelRow.mk 3 (some 1)).predicted_return) ∧
      ((LabelRow.mk 3 (some 1)).predicted_label = some 0 ↔
        (LabelRow.mk 3 (some 1)).predicted_return < 2) ∧
      ((LabelRow.mk 3 (some 1)).predicted_return = 2 →
        (LabelRow.mk 3 (some 1)).predicted_label = some 1)) :=
  ⟨by decide, apply_label_threshold_spec [LabelRow.mk 3 none] 2 _ (by decide)⟩

/-- Claim C7: `apply_label` is idempotent — reapplying with the same
threshold leaves the table unchanged. -/
theorem apply_label_idem (df : List LabelRow) (threshold : ℚ) :
    apply_label (apply_label df threshold) threshold = apply_label df threshold := by
  unfold apply_label
  rw [List.map_map]
  rfl

/-- Claim C8: `classify_market_cap` returns `Large` iff the market cap is
defined and `≥ 10e9`, `Mid` iff it is defined and in `[2e9, 10e9)`, `Small`
iff it is defined and `< 2e9`, and `Unknown` iff it is undefined. -/
theorem classify_market_cap_spec (mc : Option ℚ) :
    (classify_market_cap mc = "Large" ↔ ∃ v, mc = some v ∧ 10000000000 ≤ v) ∧
    (classify_market_cap mc = "Mid" ↔
      ∃ v, mc = some v ∧ 2000000000 ≤ v ∧ v < 10000000000) ∧
    (classify_market_cap mc = "Small" ↔ ∃ v, mc = some v ∧ v < 2000000000) ∧
    (classify_market_cap mc = "Unknown" ↔ mc = none) := by
  cases mc with
  | none => refine ⟨?_, ?_, ?_, ?_⟩ <;> simp [classify_market_cap]
  | some v =>
    unfold classify_market_cap
    by_cases h1 : (10000000000 : ℚ) ≤ v
    · have h2 : (2000000000 : ℚ) ≤ v := le_trans (by norm_num) h1
      refine ⟨?_, ?_, ?_, ?_⟩ <;> simp [h1, not_lt.mpr h1, not_lt.mpr h2]
    · by_cases h2 : (2000000000 : ℚ) ≤ v
      · refine ⟨?_, ?_, ?_, ?_⟩ <;>
          simp [h1, h2, lt_of_not_ge h1, not_lt.mpr h2]
      · refine ⟨?_, ?_, ?_, ?_⟩ <;>
          simp [h1, h2, lt_of_not_ge h2]

/-! ## Claims about `add_target_return` -/

lemma getElem?_eq_some_getD (l : List ℚ) (n : Nat) (h : n < l.length) :
    l[n]? = some (l.getD n 0) := by
  rw [List.getD_eq_getElem?_getD, List.getElem?_eq_getElem h]
  rfl

/-- Claim C5: for every close series and positive `forward_days` `d`,
`add_target_return` produces one target per input row, equal to
`close(t+d)/close(t) − 1` for every row with `t + d < n`, and undefined
(NaN) on exactly the last `d` rows whenever `n > d`. -/
theorem add_target_return_spec (close : List ℚ) (d : Nat) (hd : 0 < d) :
    (add_target_return close d).length = close.length ∧
    (∀ t, t + d < close.length →
      (add_target_return close d).get? t =
        some (some (close.getD (t + d) 0 / close.getD t 0 - 1))) ∧
    (d < close.length → ∀ t, close.length - d ≤ t → t < close.length →
      (add_target_return close d).get? t = some none) := by
  refine ⟨?_, ?_, ?_⟩
  · simp [add_target_return, shiftNeg]
  · intro t ht
    have ht' : t < close.length := by omega
    rw [List.get?_eq_getElem?, add_target_return, List.getElem?_zipWith]
    have hs : (shiftNeg close d)[t]? = some (close.get? (t + d)) := by
      rw [shiftNeg, List.getElem?_map, List.getElem?_range ht']
      rfl
    rw [hs, List.get?_eq_getElem?, getElem?_eq_some_getD close (t + d) ht,
      getElem?_eq_some_getD close t ht']
    rfl
  · intro hdn t hge hlt
    rw [List.get?_eq_getElem?, add_target_return, List.getElem?_zipWith]
    have hs : (shiftNeg close d)[t]? = some (close.get? (t + d)) := by
      rw [shiftNeg, List.getElem?_map, List.getElem?_range hlt]
      rfl
    have hnone : close.get? (t + d) = none := by
      rw [List.get?_eq_getElem?]
      exact List.getElem?_eq_none (by omega)
    rw [hs, hnone, getElem?_eq_some_getD close t hlt]
    rfl

/-- Witness for C5 at the spec's example: closes
`[100, 102, 101, 105, 104, 110]`, `forward_days = 2`:
`target_return[0] = 101/100 − 1` and `target_return[4]` is NaN. -/
theorem add_target_return_spec_wit :
    0 < 2 ∧
    (add_target_return [100, 102, 101, 105, 104, 110] 2).get? 0 =
      some (some ((101 : ℚ) / 100 - 1)) ∧
    (add_target_return [100, 102, 101, 105, 104, 110] 2).get? 4 = some none := by
  have h := add_target_return_spec [100, 102, 101, 105, 104, 110] 2 (by norm_num)
  refine ⟨by norm_num, ?_, ?_⟩
  · have h2 := h.2.1 0 (by norm_num)
    rw [h2]
    norm_num [List.getD]
  · exact h.2.2 (by norm_num) 4 (by norm_num) (by norm_num)

/-! ## Claims about `predict_returns` -/

lemma fillRow_of_no_none (row : List (Option ℚ)) (h : row.any (fun c => c.isNone) = false) :
    row.map (fun c => some (c.getD 0)) = row := by
  induction row with
  | nil => rfl
  | cons c cs ih =>
    simp only [List.any_cons, Bool.or_eq_false_iff] at h
    rw [List.map_cons, ih h.2]
    cases c with
    | none => simp at h
    | some v => rfl

lemma fillMatrix_of_no_nan (X : List (List (Option ℚ))) (h : hasNaN X = false) :
    fillMatrix X = X := by
  induction X with
  | nil => rfl
  | cons row X ih =>
    rw [hasNaN, List.any_cons] at h
    rcases Bool.or_eq_false_iff.mp h with ⟨hr, hX⟩
    have hX' : fillMatrix X = X := ih (by rw [hasNaN]; exact hX)
    rw [fillMatrix, List.map_cons, fillRow_of_no_none row hr]
    rw [fillMatrix] at hX'
    rw [hX']

/-- Claim C10: the matrix `predict_returns` hands to the regressor is always
the zero-filled version of the selected feature columns — every NaN cell is
replaced by 0 before `model.predict` is invoked, so every cell handed to the
model is defined. -/
theorem predict_matrix_filled_spec (md : ModelData) (df : DataFrame) :
    matrixPassed md df = fillMatrix (featureMatrix df (availableFeatures md.features df)) ∧
    (matrixPassed md df).all (fun row => row.all (fun c => c.isSome)) = true := by
  have heq : matrixPassed md df =
      fillMatrix (featureMatrix df (availableFeatures md.features df)) := by
    simp only [matrixPassed]
    split
    · rfl
    · rename_i hnan
      rw [fillMatrix_of_no_nan]
      simpa using hnan
  refine ⟨heq, ?_⟩
  rw [heq, fillMatrix, List.all_eq_true]
  intro row hrow
  rcases List.mem_map.mp hrow with ⟨row0, _, rfl⟩
  rw [List.all_eq_true]
  intro c hc
  rcases List.mem_map.mp hc with ⟨c0, _, rfl⟩
  rfl

/-- Counterexample for C9: when every declared feature is absent from the
input table, `predict_returns` does not complete — it raises
`ValueError("No features available for prediction")`. -/
theorem predict_returns_all_missing_cex :
    predict_returns (ModelData.mk (fun _ => 0) ["SMA"]) (DataFrame.mk ["Close"] [[some 1]]) =
      Except.error "No features available for prediction" := rfl

/-- Amended C9: provided at least one declared feature is present in the
input table, a missing declared feature is not fatal: `predict_returns`
completes, predicting from exactly the present subset (via `matrixPassed`),
keeps one output row per input row, and appends to every output row the
counts of features used and features missing. -/
theorem predict_returns_subset_spec (md : ModelData) (df : DataFrame)
    (h : availableFeatures md.features df ≠ []) :
    ∃ out, predict_returns md df = Except.ok out ∧
      out.cols = df.cols ++ ["predicted_return", "features_used", "features_missing"] ∧
      out.rows = (df.rows.zip ((matrixPassed md df).map md.model)).map
        (fun rp => rp.1 ++ [some rp.2, some ((availableFeatures md.features df).length : ℚ),
          some ((missingFeatures md.features df).length : ℚ)]) ∧
      out.rows.length = df.rows.length ∧
      ∀ r ∈ out.rows, ∃ orig p, r = orig ++
        [some p, some ((availableFeatures md.features df).length : ℚ),
          some ((missingFeatures md.features df).length : ℚ)] := by
  have hok : predict_returns md df = Except.ok
      { cols := df.cols ++ ["predicted_return", "features_used", "features_missing"]
        rows := (df.rows.zip ((matrixPassed md df).map md.model)).map
          (fun rp => rp.1 ++ [some rp.2, some ((availableFeatures md.features df).length : ℚ),
            some ((missingFeatures md.features df).length : ℚ)]) } := by
    simp only [predict_returns]
    rw [if_neg h]
  have hmp : (matrixPassed md df).length = df.rows.length := by
    simp only [matrixPassed]
    split <;> simp [fillMatrix, featureMatrix]
  refine ⟨_, hok, rfl, rfl, ?_, ?_⟩
  · simp [hmp]
  · intro r hr
    rcases List.mem_map.mp hr with ⟨rp, _, rfl⟩
    exact ⟨rp.1, rp.2, rfl⟩

/-- Witness for C9: model declares `SMA` and `RSI`, the table has only
`SMA`; prediction completes with one row per input row and the appended
observability columns. -/
theorem predict_returns_subset_spec_wit :
    availableFeatures (ModelData.mk (fun _ => 7) ["SMA", "RSI"]).features
      (DataFrame.mk ["SMA"] [[some 2]]) ≠ [] ∧
    ∃ out, predict_returns (ModelData.mk (fun _ => 7) ["SMA", "RSI"])
        (DataFrame.mk ["SMA"] [[some 2]]) = Except.ok out ∧
      out.rows.length = 1 ∧
      out.cols = ["SMA", "predicted_return", "features_used", "features_missing"] := by
  have hne : availableFeatures (ModelData.mk (fun _ => 7) ["SMA", "RSI"]).features
      (DataFrame.mk ["SMA"] [[some 2]]) ≠ [] := by decide
  obtain ⟨out, hok, hcols, _, hlen, _⟩ := predict_returns_subset_spec _ _ hne
  refine ⟨hne, out, hok, by rw [hlen]; rfl, by rw [hcols]; rfl⟩
